import Mathlib

/-!
# Reference tracker and reference-counted COM objects (dxvk)

A shallow embedding of `src/util/util_reftracker.{h,cpp}` and
`src/util/com/com_object.h`.

* `void*` keys are natural numbers (addresses).
* `const char*` names are `Option String`; `none` is the null pointer.
* `std::thread::id` is `Option Nat`; `none` is the default-constructed id,
  which stands for no thread.
* `ULONG` is a natural number below `2^32`; arithmetic on it is reduced
  `% 2^32` where the code computes.  `unsigned short` is reduced `% 2^16`.
* `std::unordered_map<void*, Ref>` is an association list; the list order
  plays the part of the (unspecified) iteration order.  A real map holds at
  most one element per key, which is `RefMap.WF`.
* `Logger::info` is modelled by the list of lines a call emits.
-/

namespace dxvk

/-- Modulus of `ULONG` arithmetic (32-bit unsigned). -/
def ULONG_MOD : Nat := 2 ^ 32

/-- Modulus of `unsigned short` arithmetic. -/
def USHORT_MOD : Nat := 2 ^ 16

/-- The record `RefTracker::Ref`, with the member initialisers of the header
as field defaults. -/
structure Ref where
  name : Option String := none
  create_thread : Option Nat := none
  type : Nat := 0
  ref_count : Nat := 0
  unknown_origin : Nat := 0
  deriving DecidableEq, Repr

/-- The map type `RefTracker::RefMap`. -/
abbrev RefMap := List (Nat × Ref)

namespace RefMap

/-- Keys stored in the map, in iteration order. -/
def keys (rm : RefMap) : List Nat := rm.map Prod.fst

/-- A `std::unordered_map` holds at most one element per key. -/
def WF (rm : RefMap) : Prop := rm.keys.Nodup

instance instDecidableWF (rm : RefMap) : Decidable rm.WF :=
  inferInstanceAs (Decidable rm.keys.Nodup)

/-- Lookup, `rm.find(ptr)`: `none` stands for `rm.end()`. -/
def find : RefMap → Nat → Option Ref
  | [], _ => none
  | (q, r) :: rest, p => if q = p then some r else find rest p

/-- Access through `rm[ptr]` followed by an update `f` of the referenced
record: `operator[]` value-initialises a record when the key is missing. -/
def modifyAt : RefMap → Nat → (Ref → Ref) → RefMap
  | [], p, f => [(p, f {})]
  | (q, r) :: rest, p, f =>
    if q = p then (q, f r) :: rest else (q, r) :: modifyAt rest p f

/-- Removal `rm.erase(ptr)`: drops every element whose key is `ptr`. -/
def erase : RefMap → Nat → RefMap
  | [], _ => []
  | (q, r) :: rest, p => if q = p then erase rest p else (q, r) :: erase rest p

end RefMap

/-- `RefTracker::create`, called on thread `tid`.  The `int type` is
converted to `unsigned short` by the assignment `rec.type = type`. -/
def create (rm : RefMap) (tid : Nat) (ptr : Nat) (type : Int)
    (name : Option String) : RefMap :=
  rm.modifyAt ptr (fun rec =>
    { rec with
      name := name
      type := (type % (USHORT_MOD : Int)).toNat
      create_thread := some tid
      ref_count := 0
      unknown_origin := 0 })

/-- The body of `RefTracker::ref` on the record `rm[ptr]`. -/
def refUpdate (name : Option String) (refs : Nat) (rec : Ref) : Ref :=
  let rec1 := { rec with ref_count := refs }
  if rec1.name.isNone then { rec1 with unknown_origin := 1, name := name } else rec1

/-- `RefTracker::ref`. -/
def ref (rm : RefMap) (ptr : Nat) (name : Option String) (refs : Nat) : RefMap :=
  rm.modifyAt ptr (refUpdate name refs)

/-- `RefTracker::destroy`. -/
def destroy (rm : RefMap) (ptr : Nat) : RefMap :=
  rm.erase ptr

/-- A line handed to `Logger::info`: a fixed text, or the formatted line of
one record, kept as the tuple of the values `str::format` renders. -/
inductive LogLine where
  | text (s : String)
  | record (ptr : Nat) (name : String) (type : Nat) (ref_count : Nat) (unknown : Nat)
  deriving DecidableEq, Repr

/-- The line `RefTracker::dump` prints for one map element.  `demangle`
stands for `abi::__cxa_demangle`: `none` is a non-zero status. -/
def dumpLine (demangle : Option String → Option String) (e : Nat × Ref) : LogLine :=
  LogLine.record e.1
    (match demangle e.2.name with
     | none => "UNKNOWN"
     | some s => s)
    e.2.type e.2.ref_count e.2.unknown_origin

/-- `RefTracker::dump`: the lines it logs. -/
def dump (demangle : Option String → Option String) (rm : RefMap) : List LogLine :=
  if rm.isEmpty then []
  else
    [LogLine.text "=== REACHABLE OBJECT LIST ==="]
      ++ rm.map (dumpLine demangle)
      ++ [LogLine.text "=== REACHABLE OBJECT LIST END ==="]

/-- One iteration of the loop of `RefTracker::move_to` for the source
element `e`, acting on the target map. -/
def moveStep (tgt : RefMap) (e : Nat × Ref) : RefMap :=
  match tgt.find e.1 with
  | none => tgt.modifyAt e.1 (fun _ => e.2)
  | some _ => tgt.modifyAt e.1 (fun rec => { rec with name := e.2.name, unknown_origin := 0 })

/-- What `RefTracker::move_to` leaves behind. -/
structure MoveResult where
  log : List LogLine
  src : RefMap
  tgt : RefMap
  deriving DecidableEq, Repr

/-- `RefTracker::move_to`, for `this` with map `src` and a different tracker
`target` with map `tgt`. -/
def move_to (src tgt : RefMap) : MoveResult :=
  { log := [LogLine.text "=== REF TRACKER MOVE ===", LogLine.text "=== REF TRACKER MOVE END ==="]
    src := []
    tgt := src.foldl moveStep tgt }

/-- The state of a `ComObject`: its counter `m_refCount`. -/
structure ComObject where
  m_refCount : Nat := 0
  deriving DecidableEq, Repr

namespace ComObject

/-- The constructor `ComObject::ComObject` at address `this`, on thread `tid`,
against the map `rm` of the active tracker; `tn` is `typeid(*this).name()`.
It runs `REF_CREATE(this, 2)`. -/
def construct (rm : RefMap) (tid : Nat) (this : Nat) (tn : String) : ComObject × RefMap :=
  ({ m_refCount := 0 }, create rm tid this 2 (some tn))

/-- `ComObject::AddRef`: returned value, object state, map of the active
tracker. -/
def AddRef (rm : RefMap) (this : Nat) (obj : ComObject) (tn : String) :
    Nat × ComObject × RefMap :=
  let rm1 := ref rm this (some tn) ((obj.m_refCount + 1) % ULONG_MOD)
  let c := (obj.m_refCount + 1) % ULONG_MOD
  (c, { obj with m_refCount := c }, rm1)

/-- `ComObject::Release`: returned value, object state (`none` once
`delete this` has run the destructor, which does `REF_DESTROY(this)`), map of
the active tracker. -/
def Release (rm : RefMap) (this : Nat) (obj : ComObject) (tn : String) :
    Nat × Option ComObject × RefMap :=
  let refCount := (obj.m_refCount + ULONG_MOD - 1) % ULONG_MOD
  if refCount = 0 then (refCount, none, destroy rm this)
  else (refCount, some { obj with m_refCount := refCount }, ref rm this (some tn) refCount)

end ComObject

/-- The sequential world of one active tracker: its map and the live
objects by address. -/
structure World where
  rm : RefMap
  heap : Nat → Option ComObject

namespace World

/-- The world before anything happened: empty tracker, no object. -/
def empty : World := { rm := [], heap := fun _ => none }

/-- Construct an object at `p`; the address of a live object is never handed
out again, so that case yields `none`. -/
def construct (w : World) (tid : Nat) (p : Nat) (tn : String) : Option World :=
  match w.heap p with
  | some _ => none
  | none =>
    let r := ComObject.construct w.rm tid p tn
    some { rm := r.2, heap := Function.update w.heap p (some r.1) }

/-- Call `AddRef` on the object at `p`; only a live object can be called. -/
def AddRef (w : World) (p : Nat) (tn : String) : Option (Nat × World) :=
  match w.heap p with
  | none => none
  | some obj =>
    let r := ComObject.AddRef w.rm p obj tn
    some (r.1, { rm := r.2.2, heap := Function.update w.heap p (some r.2.1) })

/-- Call `Release` on the object at `p`; only a live object can be called. -/
def Release (w : World) (p : Nat) (tn : String) : Option (Nat × World) :=
  match w.heap p with
  | none => none
  | some obj =>
    let r := ComObject.Release w.rm p obj tn
    some (r.1, { rm := r.2.2, heap := Function.update w.heap p r.2.1 })

end World

/-- An operation of the sequential model. -/
inductive Op where
  | construct (tid : Nat) (p : Nat) (tn : String)
  | addRef (p : Nat) (tn : String)
  | release (p : Nat) (tn : String)
  deriving DecidableEq, Repr

/-- One operation on the world. -/
def step (w : World) : Op → Option World
  | Op.construct tid p tn => w.construct tid p tn
  | Op.addRef p tn => (w.AddRef p tn).map Prod.snd
  | Op.release p tn => (w.Release p tn).map Prod.snd

/-- A finite sequence of operations, from left to right. -/
def run : World → List Op → Option World
  | w, [] => some w
  | w, op :: ops => (step w op).bind (fun w1 => run w1 ops)

/-- The world after `n` further `AddRef` calls on the object at `p`. -/
def addRefN (p : Nat) (tn : String) : Nat → World → Option World
  | 0, w => some w
  | n + 1, w => (w.AddRef p tn).bind (fun r => addRefN p tn n r.2)

/-- The world after `n` further `Release` calls on the object at `p`. -/
def releaseN (p : Nat) (tn : String) : Nat → World → Option World
  | 0, w => some w
  | n + 1, w => (w.Release p tn).bind (fun r => releaseN p tn n r.2)

/-- The tracker mirrors the heap: every live object has a record carrying
its counter, and every record belongs to a live object. -/
def Mirrors (w : World) : Prop :=
  (∀ p obj, w.heap p = some obj →
      ∃ r, w.rm.find p = some r ∧ r.ref_count = obj.m_refCount) ∧
  (∀ p r, w.rm.find p = some r → ∃ obj, w.heap p = some obj)

/-- Whether a logged line is the record line of address `p`. -/
def LogLine.isRecordOf (p : Nat) : LogLine → Bool
  | LogLine.text _ => false
  | LogLine.record q _ _ _ _ => q == p

/-- A call of one of the methods of a tracker other than `move_to`. -/
inductive TrackerOp where
  | create (tid : Nat) (ptr : Nat) (type : Int) (name : Option String)
  | ref (ptr : Nat) (name : Option String) (refs : Nat)
  | destroy (ptr : Nat)
  | dump
  deriving DecidableEq, Repr

/-- The map of the tracker after the call and the lines the call logs;
`dump` is a `const` method. -/
def applyOp (demangle : Option String → Option String) (rm : RefMap) :
    TrackerOp → RefMap × List LogLine
  | TrackerOp.create tid ptr type name => (create rm tid ptr type name, [])
  | TrackerOp.ref ptr name refs => (ref rm ptr name refs, [])
  | TrackerOp.destroy ptr => (destroy rm ptr, [])
  | TrackerOp.dump => (rm, dump demangle rm)

/-- The mutexes `RefTracker::move_to` locks, in the order of the two
`std::lock_guard` declarations, for `this` the tracker `self`: first
`target.mtx`, then `mtx`.  Trackers are named by their identity. -/
def move_to_locks (self target : Nat) : List Nat := [target, self]

/-- The state of one module: the tracker `s_refTracker` points to, the map
of every tracker instance (by identity), the live objects by address, and
the lines logged so far. -/
structure ModuleState where
  active : Nat
  trackers : Nat → RefMap
  heap : Nat → Option ComObject
  log : List LogLine

/-- The function `refTracker()`: the tracker bound at the time of the call. -/
def refTracker (m : ModuleState) : Nat := m.active

/-- The function `linkRefTracker(tracker)`. -/
def linkRefTracker (m : ModuleState) (tracker : Nat) : ModuleState :=
  if tracker = m.active then m
  else
    let r := move_to (m.trackers m.active) (m.trackers tracker)
    { active := tracker
      trackers := Function.update (Function.update m.trackers m.active r.src) tracker r.tgt
      heap := m.heap
      log := m.log ++ r.log }

namespace ModuleState

/-- Construct an object at the free address `p`: `REF_CREATE` goes to
`refTracker()`. -/
def construct (m : ModuleState) (tid : Nat) (p : Nat) (tn : String) : Option ModuleState :=
  match m.heap p with
  | some _ => none
  | none =>
    let r := ComObject.construct (m.trackers (refTracker m)) tid p tn
    some { m with
      trackers := Function.update m.trackers (refTracker m) r.2
      heap := Function.update m.heap p (some r.1) }

/-- Call `AddRef` on the live object at `p`: `REF_BUMP` goes to
`refTracker()`. -/
def AddRef (m : ModuleState) (p : Nat) (tn : String) : Option (Nat × ModuleState) :=
  match m.heap p with
  | none => none
  | some obj =>
    let r := ComObject.AddRef (m.trackers (refTracker m)) p obj tn
    some (r.1, { m with
      trackers := Function.update m.trackers (refTracker m) r.2.2
      heap := Function.update m.heap p (some r.2.1) })

/-- Call `Release` on the live object at `p`: `REF_BUMP`, or `REF_DESTROY`
from the destructor, goes to `refTracker()`. -/
def Release (m : ModuleState) (p : Nat) (tn : String) : Option (Nat × ModuleState) :=
  match m.heap p with
  | none => none
  | some obj =>
    let r := ComObject.Release (m.trackers (refTracker m)) p obj tn
    some (r.1, { m with
      trackers := Function.update m.trackers (refTracker m) r.2.2
      heap := Function.update m.heap p r.2.1 })

end ModuleState

/-- A step of the module-level state machine. -/
inductive MOp where
  | construct (tid : Nat) (p : Nat) (tn : String)
  | addRef (p : Nat) (tn : String)
  | release (p : Nat) (tn : String)
  | link (tracker : Nat)
  deriving DecidableEq, Repr

/-- One step of the module-level state machine. -/
def mstep (m : ModuleState) : MOp → Option ModuleState
  | MOp.construct tid p tn => m.construct tid p tn
  | MOp.addRef p tn => (m.AddRef p tn).map Prod.snd
  | MOp.release p tn => (m.Release p tn).map Prod.snd
  | MOp.link tracker => some (linkRefTracker m tracker)

/-- A finite sequence of steps, from left to right. -/
def mrun : ModuleState → List MOp → Option ModuleState
  | m, [] => some m
  | m, op :: ops => (mstep m op).bind (fun m1 => mrun m1 ops)

/-- Values of the enumeration `D3D_FEATURE_LEVEL`, which comes from the
platform header `d3dcommon.h`. -/
def D3D_FEATURE_LEVEL_9_1 : Nat := 0x9100

/-- See `D3D_FEATURE_LEVEL_9_1`. -/
def D3D_FEATURE_LEVEL_9_2 : Nat := 0x9200

/-- See `D3D_FEATURE_LEVEL_9_1`. -/
def D3D_FEATURE_LEVEL_9_3 : Nat := 0x9300

/-- See `D3D_FEATURE_LEVEL_9_1`. -/
def D3D_FEATURE_LEVEL_10_0 : Nat := 0xa000

/-- See `D3D_FEATURE_LEVEL_9_1`. -/
def D3D_FEATURE_LEVEL_10_1 : Nat := 0xa100

/-- See `D3D_FEATURE_LEVEL_9_1`. -/
def D3D_FEATURE_LEVEL_11_0 : Nat := 0xb000

/-- The array `defaultFeatureLevels` of `D3D11CreateDevice`. -/
def defaultFeatureLevels : List Nat :=
  [D3D_FEATURE_LEVEL_11_0, D3D_FEATURE_LEVEL_10_1, D3D_FEATURE_LEVEL_10_0,
   D3D_FEATURE_LEVEL_9_3, D3D_FEATURE_LEVEL_9_2, D3D_FEATURE_LEVEL_9_1]

/-- The levels `D3D11CreateDevice` probes.  The argument is the array
`pFeatureLevels[0 .. FeatureLevels)`, `none` for a null pointer; a null
pointer or a count of 0 selects the defaults. -/
def effectiveLevels : Option (List Nat) → List Nat
  | none => defaultFeatureLevels
  | some [] => defaultFeatureLevels
  | some (l :: rest) => l :: rest

/-- The probing loop of `D3D11CreateDevice` over the levels not yet probed,
from index `flId`: the value of `flId` when the loop is left.  `support`
stands for `D3D11Device::CheckFeatureLevelSupport(adapter, ·)`. -/
def probeLoop (support : Nat → Bool) : List Nat → Nat → Nat
  | [], flId => flId
  | l :: rest, flId => if support l then flId else probeLoop support rest (flId + 1)

/-- How the feature-level selection of `D3D11CreateDevice` ends: with
`return E_INVALIDARG` ahead of the `try` block that creates the device, or
with the level `fl = pFeatureLevels[flId]` to create the device with and the
value stored through `pFeatureLevel` when that pointer is not null. -/
inductive LevelOutcome where
  | E_INVALIDARG
  | proceed (flId : Nat) (fl : Nat) (written : Option Nat)
  deriving DecidableEq, Repr

/-- The feature-level selection of `D3D11CreateDevice`; `hasOut` tells
whether `pFeatureLevel` is not null. -/
def selectFeatureLevel (support : Nat → Bool) (pFeatureLevels : Option (List Nat))
    (hasOut : Bool) : LevelOutcome :=
  let levels := effectiveLevels pFeatureLevels
  let flId := probeLoop support levels 0
  if flId = levels.length then LevelOutcome.E_INVALIDARG
  else
    let fl := levels.getD flId 0
    LevelOutcome.proceed flId fl (if hasOut then some fl else none)

/-- The state of the linking scenario: tracker 0 is active and holds the
created record of the object at address 5, tracker 1 holds a record for the
same address that `ref` synthesised. -/
def scenarioState : ModuleState :=
  { active := 0
    trackers := fun t =>
      if t = 0 then create [] 1 5 2 (some "Y")
      else if t = 1 then ref [] 5 (some "Z") 3
      else []
    heap := Function.update (fun _ => none) 5 (some { m_refCount := 3 })
    log := [] }

/-- Auxiliary for the proofs about `move_to`: the entry of one key after the
loop, from its entry in the source and its entry in the target before. -/
def mergedRef : Option Ref → Option Ref → Option Ref
  | none, b => b
  | some a, none => some a
  | some a, some b => some { b with name := a.name, unknown_origin := 0 }

/-! ## Lemmas on the map operations -/

namespace RefMap

theorem find_modifyAt_self (rm : RefMap) (p : Nat) (f : Ref → Ref) :
    (rm.modifyAt p f).find p = some (f ((rm.find p).getD {})) := by
  induction rm with
  | nil => simp [modifyAt, find]
  | cons e rest ih =>
    obtain ⟨q, r⟩ := e
    by_cases h : q = p
    · simp [modifyAt, find, h]
    · simp [modifyAt, find, h, ih]

theorem find_modifyAt_ne (rm : RefMap) (p q : Nat) (f : Ref → Ref) (h : q ≠ p) :
    (rm.modifyAt p f).find q = rm.find q := by
  induction rm with
  | nil => simp [modifyAt, find, Ne.symm h]
  | cons e rest ih =>
    obtain ⟨k, r⟩ := e
    by_cases hk : k = p
    · subst hk
      simp [modifyAt, find, Ne.symm h]
    · by_cases hq : k = q
      · subst hq
        simp [modifyAt, find, hk]
      · simp [modifyAt, find, hk, hq, ih]

theorem find_erase_self (rm : RefMap) (p : Nat) : (rm.erase p).find p = none := by
  induction rm with
  | nil => simp [erase, find]
  | cons e rest ih =>
    obtain ⟨q, r⟩ := e
    by_cases h : q = p
    · simp [erase, h, ih]
    · simp [erase, find, h, ih]

theorem find_erase_ne (rm : RefMap) (p q : Nat) (h : q ≠ p) :
    (rm.erase p).find q = rm.find q := by
  induction rm with
  | nil => simp [erase, find]
  | cons e rest ih =>
    obtain ⟨k, r⟩ := e
    by_cases hk : k = p
    · subst hk
      simp [erase, find, Ne.symm h, ih]
    · by_cases hq : k = q
      · subst hq
        simp [erase, find, hk]
      · simp [erase, find, hk, hq, ih]

theorem find_eq_none_iff (rm : RefMap) (p : Nat) : rm.find p = none ↔ p ∉ rm.keys := by
  induction rm with
  | nil => simp [find, keys]
  | cons e rest ih =>
    obtain ⟨q, r⟩ := e
    by_cases h : q = p
    · simp [find, keys, h]
    · have ih1 : find rest p = none ↔ p ∉ List.map Prod.fst rest := ih
      simp [find, keys, h, ih1, Ne.symm h]

theorem mem_keys_iff (rm : RefMap) (p : Nat) : p ∈ rm.keys ↔ ∃ r, rm.find p = some r := by
  rcases hf : rm.find p with _ | r
  · have := (find_eq_none_iff rm p).1 hf
    simp [this]
  · have : p ∈ rm.keys := by
      by_contra hc
      rw [(find_eq_none_iff rm p).2 hc] at hf
      cases hf
    simp [this]

theorem erase_of_find_none (rm : RefMap) (p : Nat) (h : rm.find p = none) :
    rm.erase p = rm := by
  induction rm with
  | nil => simp [erase]
  | cons e rest ih =>
    obtain ⟨q, r⟩ := e
    by_cases hq : q = p
    · simp [find, hq] at h
    · simp only [find, hq, if_false] at h
      simp [erase, hq, ih h]

theorem mem_keys_modifyAt (rm : RefMap) (p q : Nat) (f : Ref → Ref) :
    q ∈ (rm.modifyAt p f).keys ↔ q = p ∨ q ∈ rm.keys := by
  rw [mem_keys_iff, mem_keys_iff]
  by_cases h : q = p
  · subst h
    simp [find_modifyAt_self]
  · simp [find_modifyAt_ne rm p q f h, h]

theorem keys_modifyAt (rm : RefMap) (p : Nat) (f : Ref → Ref) :
    (rm.modifyAt p f).keys = if p ∈ rm.keys then rm.keys else rm.keys ++ [p] := by
  induction rm with
  | nil => simp [modifyAt, keys]
  | cons e rest ih =>
    obtain ⟨q, r⟩ := e
    have ih1 : List.map Prod.fst (modifyAt rest p f)
        = if p ∈ List.map Prod.fst rest then List.map Prod.fst rest
          else List.map Prod.fst rest ++ [p] := ih
    by_cases h : q = p
    · simp [modifyAt, keys, h]
    · by_cases hm : p ∈ List.map Prod.fst rest
      · simp [modifyAt, keys, h, ih1, hm]
      · simp [modifyAt, keys, h, ih1, hm, Ne.symm h]

theorem WF_modifyAt (rm : RefMap) (p : Nat) (f : Ref → Ref) (h : rm.WF) :
    (rm.modifyAt p f).WF := by
  unfold WF at *
  rw [keys_modifyAt]
  by_cases hm : p ∈ rm.keys
  · simpa [hm] using h
  · simp only [hm, if_false]
    rw [List.nodup_append]
    refine ⟨h, List.nodup_singleton p, ?_⟩
    intro a ha hb
    simp only [List.mem_singleton] at hb
    subst hb
    exact hm ha

theorem keys_erase (rm : RefMap) (p : Nat) :
    (rm.erase p).keys = rm.keys.filter (fun k => decide (k ≠ p)) := by
  induction rm with
  | nil => rfl
  | cons e rest ih =>
    obtain ⟨q, r⟩ := e
    have ih1 : List.map Prod.fst (erase rest p)
        = List.filter (fun k => decide (k ≠ p)) (List.map Prod.fst rest) := ih
    by_cases h : q = p
    · simp [erase, keys, h, ih1]
    · simp [erase, keys, h, ih1]

theorem WF_erase (rm : RefMap) (p : Nat) (h : rm.WF) : (rm.erase p).WF := by
  unfold WF at *
  rw [keys_erase]
  exact h.filter _

end RefMap

/-! ## Lemmas on the world -/

theorem Mirrors_empty : Mirrors World.empty := by
  constructor
  · intro p obj h
    simp [World.empty] at h
  · intro p r h
    simp [World.empty, RefMap.find] at h

theorem refUpdate_ref_count (name : Option String) (refs : Nat) (rec : Ref) :
    (refUpdate name refs rec).ref_count = refs := by
  unfold refUpdate
  by_cases h : rec.name.isNone <;> simp [h]

theorem Mirrors_construct (w w1 : World) (tid p : Nat) (tn : String)
    (hw : Mirrors w) (h : w.construct tid p tn = some w1) : Mirrors w1 := by
  unfold World.construct at h
  rcases hp : w.heap p with _ | o
  · simp only [hp, Option.some.injEq] at h
    subst h
    refine ⟨?_, ?_⟩
    · intro q obj hq
      by_cases hqp : q = p
      · subst hqp
        simp only [Function.update_same, Option.some.injEq] at hq
        subst hq
        simp [ComObject.construct, create, RefMap.find_modifyAt_self]
      · simp only [Function.update_noteq hqp] at hq
        simpa [ComObject.construct, create, RefMap.find_modifyAt_ne _ _ _ _ hqp] using hw.1 q obj hq
    · intro q r hq
      by_cases hqp : q = p
      · subst hqp
        simp
      · simp only [ComObject.construct, create, RefMap.find_modifyAt_ne _ _ _ _ hqp] at hq
        simpa [Function.update_noteq hqp] using hw.2 q r hq
  · simp [hp] at h

theorem Release_zero (rm : RefMap) (this : Nat) (obj : ComObject) (tn : String)
    (h : (obj.m_refCount + ULONG_MOD - 1) % ULONG_MOD = 0) :
    ComObject.Release rm this obj tn = (0, none, destroy rm this) := by
  simp only [ComObject.Release, h, if_true]

theorem Release_nonzero (rm : RefMap) (this : Nat) (obj : ComObject) (tn : String)
    (h : (obj.m_refCount + ULONG_MOD - 1) % ULONG_MOD ≠ 0) :
    ComObject.Release rm this obj tn =
      ((obj.m_refCount + ULONG_MOD - 1) % ULONG_MOD,
        some { m_refCount := (obj.m_refCount + ULONG_MOD - 1) % ULONG_MOD },
        ref rm this (some tn) ((obj.m_refCount + ULONG_MOD - 1) % ULONG_MOD)) := by
  simp only [ComObject.Release, h, if_false]

theorem World_AddRef_live (w : World) (p : Nat) (tn : String) (o : ComObject)
    (hp : w.heap p = some o) :
    w.AddRef p tn = some ((o.m_refCount + 1) % ULONG_MOD,
      { rm := ref w.rm p (some tn) ((o.m_refCount + 1) % ULONG_MOD)
        heap := Function.update w.heap p (some { m_refCount := (o.m_refCount + 1) % ULONG_MOD }) }) := by
  simp only [World.AddRef, hp, ComObject.AddRef]

theorem World_Release_zero (w : World) (p : Nat) (tn : String) (o : ComObject)
    (hp : w.heap p = some o) (h : (o.m_refCount + ULONG_MOD - 1) % ULONG_MOD = 0) :
    w.Release p tn = some (0,
      { rm := destroy w.rm p, heap := Function.update w.heap p none }) := by
  simp only [World.Release, hp, Release_zero w.rm p o tn h]

theorem World_Release_nonzero (w : World) (p : Nat) (tn : String) (o : ComObject)
    (hp : w.heap p = some o) (h : (o.m_refCount + ULONG_MOD - 1) % ULONG_MOD ≠ 0) :
    w.Release p tn = some ((o.m_refCount + ULONG_MOD - 1) % ULONG_MOD,
      { rm := ref w.rm p (some tn) ((o.m_refCount + ULONG_MOD - 1) % ULONG_MOD)
        heap := Function.update w.heap p
          (some { m_refCount := (o.m_refCount + ULONG_MOD - 1) % ULONG_MOD }) }) := by
  simp only [World.Release, hp, Release_nonzero w.rm p o tn h]

theorem find_ref_self (rm : RefMap) (p : Nat) (name : Option String) (refs : Nat) :
    ∃ r, (ref rm p name refs).find p = some r ∧ r.ref_count = refs :=
  ⟨_, RefMap.find_modifyAt_self rm p _, refUpdate_ref_count name refs _⟩

theorem find_ref_ne (rm : RefMap) (p q : Nat) (name : Option String) (refs : Nat)
    (h : q ≠ p) : (ref rm p name refs).find q = rm.find q :=
  RefMap.find_modifyAt_ne rm p q _ h

/-- Updating the tracker with `ref` on a live object at `p` that receives
counter `c` keeps the mirror. -/
theorem Mirrors_ref (w : World) (p : Nat) (name : Option String) (c : Nat)
    (hw : Mirrors w) :
    Mirrors { rm := ref w.rm p name c
              heap := Function.update w.heap p (some { m_refCount := c }) } := by
  refine ⟨?_, ?_⟩
  · intro q obj hq
    by_cases hqp : q = p
    · subst hqp
      simp only [Function.update_same, Option.some.injEq] at hq
      subst hq
      exact find_ref_self w.rm q name c
    · simp only [Function.update_noteq hqp] at hq
      simp only [find_ref_ne _ _ _ _ _ hqp]
      exact hw.1 q obj hq
  · intro q r hq
    by_cases hqp : q = p
    · subst hqp
      exact ⟨_, Function.update_same _ _ _⟩
    · simp only [find_ref_ne _ _ _ _ _ hqp] at hq
      simp only [Function.update_noteq hqp]
      exact hw.2 q r hq

/-- Removing both the record and the object at `p` keeps the mirror. -/
theorem Mirrors_destroy (w : World) (p : Nat) (hw : Mirrors w) :
    Mirrors { rm := destroy w.rm p, heap := Function.update w.heap p none } := by
  refine ⟨?_, ?_⟩
  · intro q obj hq
    by_cases hqp : q = p
    · subst hqp
      simp only [Function.update_same] at hq
      cases hq
    · simp only [Function.update_noteq hqp] at hq
      simp only [destroy, RefMap.find_erase_ne _ _ _ hqp]
      exact hw.1 q obj hq
  · intro q r hq
    by_cases hqp : q = p
    · subst hqp
      simp only [destroy, RefMap.find_erase_self] at hq
      cases hq
    · simp only [destroy, RefMap.find_erase_ne _ _ _ hqp] at hq
      simp only [Function.update_noteq hqp]
      exact hw.2 q r hq

theorem Mirrors_AddRef (w : World) (v : Nat) (w1 : World) (p : Nat) (tn : String)
    (hw : Mirrors w) (h : w.AddRef p tn = some (v, w1)) : Mirrors w1 := by
  rcases hp : w.heap p with _ | o
  · simp [World.AddRef, hp] at h
  · rw [World_AddRef_live w p tn o hp] at h
    simp only [Option.some.injEq, Prod.mk.injEq] at h
    obtain ⟨-, h⟩ := h
    subst h
    exact Mirrors_ref w p (some tn) _ hw

theorem Mirrors_Release (w : World) (v : Nat) (w1 : World) (p : Nat) (tn : String)
    (hw : Mirrors w) (h : w.Release p tn = some (v, w1)) : Mirrors w1 := by
  rcases hp : w.heap p with _ | o
  · simp [World.Release, hp] at h
  · by_cases hz : (o.m_refCount + ULONG_MOD - 1) % ULONG_MOD = 0
    · rw [World_Release_zero w p tn o hp hz] at h
      simp only [Option.some.injEq, Prod.mk.injEq] at h
      obtain ⟨-, h⟩ := h
      subst h
      exact Mirrors_destroy w p hw
    · rw [World_Release_nonzero w p tn o hp hz] at h
      simp only [Option.some.injEq, Prod.mk.injEq] at h
      obtain ⟨-, h⟩ := h
      subst h
      exact Mirrors_ref w p (some tn) _ hw

theorem Mirrors_step (w w1 : World) (op : Op) (hw : Mirrors w) (h : step w op = some w1) :
    Mirrors w1 := by
  cases op with
  | construct tid p tn => exact Mirrors_construct w w1 tid p tn hw h
  | addRef p tn =>
    simp only [step, Option.map_eq_some'] at h
    obtain ⟨⟨v, w2⟩, h1, h2⟩ := h
    simp only at h2
    subst h2
    exact Mirrors_AddRef w v w2 p tn hw h1
  | release p tn =>
    simp only [step, Option.map_eq_some'] at h
    obtain ⟨⟨v, w2⟩, h1, h2⟩ := h
    simp only at h2
    subst h2
    exact Mirrors_Release w v w2 p tn hw h1

theorem Mirrors_run (ops : List Op) (w w1 : World) (hw : Mirrors w)
    (h : run w ops = some w1) : Mirrors w1 := by
  induction ops generalizing w with
  | nil =>
    simp only [run, Option.some.injEq] at h
    subst h
    exact hw
  | cons op ops ih =>
    simp only [run, Option.bind_eq_some] at h
    obtain ⟨w2, h1, h2⟩ := h
    exact ih w2 (Mirrors_step w w2 op hw h1) h2

theorem ULONG_MOD_eq : ULONG_MOD = 4294967296 := by
  norm_num [ULONG_MOD]

theorem pred_mod_cast (c : Nat) :
    (((c + ULONG_MOD - 1) % ULONG_MOD : Nat) : Int) = ((c : Int) - 1) % 2 ^ 32 := by
  rw [ULONG_MOD_eq]
  omega

/-! ## Lemmas on repeated `AddRef` and `Release` -/

theorem isSome_find_ref (rm : RefMap) (p : Nat) (name : Option String) (refs : Nat) :
    ((ref rm p name refs).find p).isSome = true := by
  obtain ⟨r, hr, -⟩ := find_ref_self rm p name refs
  rw [hr]
  rfl

theorem addRefN_spec (p : Nat) (tn : String) (k : Nat) :
    ∀ (w : World) (c : Nat), w.heap p = some { m_refCount := c } →
      (w.rm.find p).isSome = true → c + k < ULONG_MOD →
      ∃ wk, addRefN p tn k w = some wk ∧ wk.heap p = some { m_refCount := c + k } ∧
        (wk.rm.find p).isSome = true := by
  induction k with
  | zero =>
    intro w c hp hr _
    exact ⟨w, rfl, hp, hr⟩
  | succ k ih =>
    intro w c hp hr hlt
    have hmod : (c + 1) % ULONG_MOD = c + 1 := Nat.mod_eq_of_lt (by omega)
    have hstep := World_AddRef_live w p tn _ hp
    simp only [hmod] at hstep
    obtain ⟨wk, h1, h2, h3⟩ := ih
      { rm := ref w.rm p (some tn) (c + 1)
        heap := Function.update w.heap p (some { m_refCount := c + 1 }) }
      (c + 1) (Function.update_same _ _ _)
      (isSome_find_ref w.rm p (some tn) (c + 1)) (by omega)
    refine ⟨wk, ?_, ?_, h3⟩
    · simp only [addRefN, hstep, Option.some_bind]
      exact h1
    · rw [h2]
      congr 2
      omega

theorem releaseN_spec (p : Nat) (tn : String) (j : Nat) :
    ∀ (w : World) (c : Nat), w.heap p = some { m_refCount := c } →
      (w.rm.find p).isSome = true → j < c → c < ULONG_MOD →
      ∃ wj, releaseN p tn j w = some wj ∧ wj.heap p = some { m_refCount := c - j } ∧
        (wj.rm.find p).isSome = true := by
  induction j with
  | zero =>
    intro w c hp hr _ _
    exact ⟨w, rfl, hp, hr⟩
  | succ j ih =>
    intro w c hp hr hj hlt
    have hmod : (c + ULONG_MOD - 1) % ULONG_MOD = c - 1 := by
      rw [ULONG_MOD_eq] at hlt ⊢
      omega
    have hc1 : c - 1 ≠ 0 := by omega
    have hnz : (({ m_refCount := c } : ComObject).m_refCount + ULONG_MOD - 1) % ULONG_MOD ≠ 0 := by
      simp only [hmod]
      exact hc1
    have hstep := World_Release_nonzero w p tn _ hp hnz
    simp only [hmod] at hstep
    obtain ⟨wj, h1, h2, h3⟩ := ih
      { rm := ref w.rm p (some tn) (c - 1)
        heap := Function.update w.heap p (some { m_refCount := c - 1 }) }
      (c - 1) (Function.update_same _ _ _)
      (isSome_find_ref w.rm p (some tn) (c - 1)) (Nat.lt_sub_of_add_lt hj)
      (Nat.lt_of_le_of_lt (Nat.sub_le c 1) hlt)
    refine ⟨wj, ?_, ?_, h3⟩
    · simp only [releaseN, hstep, Option.some_bind]
      exact h1
    · rw [h2, Nat.sub_sub, Nat.add_comm 1 j]

theorem dump_record_mem_keys (demangle : Option String → Option String) (rm : RefMap)
    (p : Nat) (l : LogLine) (hl : l ∈ dump demangle rm) (hr : l.isRecordOf p = true) :
    p ∈ rm.keys := by
  unfold dump at hl
  by_cases he : rm.isEmpty = true
  · simp [he] at hl
  · simp only [he, Bool.false_eq_true, if_false, List.mem_append, List.mem_singleton,
      List.mem_map] at hl
    rcases hl with (hl | ⟨e, he1, he2⟩) | hl
    · subst hl
      simp [LogLine.isRecordOf] at hr
    · subst he2
      simp only [dumpLine, LogLine.isRecordOf, beq_iff_eq] at hr
      subst hr
      exact List.mem_map_of_mem Prod.fst he1
    · subst hl
      simp [LogLine.isRecordOf] at hr

theorem dump_no_record (demangle : Option String → Option String) (rm : RefMap)
    (p : Nat) (h : rm.find p = none) :
    ∀ l ∈ dump demangle rm, l.isRecordOf p = false := by
  intro l hl
  by_contra hc
  have hr : l.isRecordOf p = true := by
    cases hb : l.isRecordOf p
    · exact absurd hb hc
    · rfl
  exact (RefMap.find_eq_none_iff rm p).1 h (dump_record_mem_keys demangle rm p l hl hr)

/-! ## Lemmas on `move_to` -/

theorem find_moveStep_self (tgt : RefMap) (e : Nat × Ref) :
    (moveStep tgt e).find e.1 = mergedRef (some e.2) (tgt.find e.1) := by
  unfold moveStep
  rcases h : tgt.find e.1 with _ | b
  · simp only [RefMap.find_modifyAt_self, mergedRef]
  · simp only [RefMap.find_modifyAt_self, h, Option.getD_some, mergedRef]

theorem find_moveStep_ne (tgt : RefMap) (e : Nat × Ref) (q : Nat) (h : q ≠ e.1) :
    (moveStep tgt e).find q = tgt.find q := by
  unfold moveStep
  rcases tgt.find e.1 with _ | b
  · exact RefMap.find_modifyAt_ne tgt e.1 q _ h
  · exact RefMap.find_modifyAt_ne tgt e.1 q _ h

theorem WF_moveStep (tgt : RefMap) (e : Nat × Ref) (h : tgt.WF) : (moveStep tgt e).WF := by
  unfold moveStep
  rcases tgt.find e.1 with _ | b
  · exact RefMap.WF_modifyAt tgt e.1 _ h
  · exact RefMap.WF_modifyAt tgt e.1 _ h

theorem mem_keys_moveStep (tgt : RefMap) (e : Nat × Ref) (q : Nat) :
    q ∈ (moveStep tgt e).keys ↔ q = e.1 ∨ q ∈ tgt.keys := by
  unfold moveStep
  rcases tgt.find e.1 with _ | b
  · exact RefMap.mem_keys_modifyAt tgt e.1 q _
  · exact RefMap.mem_keys_modifyAt tgt e.1 q _

theorem WF_foldl_moveStep (src : RefMap) :
    ∀ tgt : RefMap, tgt.WF → (src.foldl moveStep tgt).WF := by
  induction src with
  | nil => exact fun tgt h => h
  | cons e rest ih => exact fun tgt h => ih _ (WF_moveStep tgt e h)

theorem mem_keys_foldl_moveStep (src : RefMap) :
    ∀ (tgt : RefMap) (q : Nat),
      q ∈ (src.foldl moveStep tgt).keys ↔ q ∈ src.keys ∨ q ∈ tgt.keys := by
  induction src with
  | nil => intro tgt q; simp [RefMap.keys]
  | cons e rest ih =>
    intro tgt q
    have h1 := ih (moveStep tgt e) q
    have h2 := mem_keys_moveStep tgt e q
    simp only [List.foldl_cons]
    rw [h1, h2]
    simp only [RefMap.keys, List.map_cons, List.mem_cons]
    tauto

theorem find_foldl_moveStep (src : RefMap) :
    ∀ (tgt : RefMap) (q : Nat), src.WF →
      (src.foldl moveStep tgt).find q = mergedRef (src.find q) (tgt.find q) := by
  induction src with
  | nil => intro tgt q _; rfl
  | cons e rest ih =>
    intro tgt q hwf
    have hnd : e.1 ∉ RefMap.keys rest ∧ RefMap.WF rest := by
      simpa [RefMap.WF, RefMap.keys] using hwf
    simp only [List.foldl_cons]
    rw [ih (moveStep tgt e) q hnd.2]
    obtain ⟨k, v⟩ := e
    by_cases hq : k = q
    · subst hq
      have hrest : RefMap.find rest k = none := (RefMap.find_eq_none_iff rest k).2 hnd.1
      have hs := find_moveStep_self tgt (k, v)
      simp only at hs
      rw [hrest, hs]
      simp [RefMap.find, mergedRef]
    · have hs := find_moveStep_ne tgt (k, v) q (Ne.symm hq)
      rw [hs]
      simp [RefMap.find, hq]

/-! ## Lemmas on the module state -/

theorem linkRefTracker_same (m : ModuleState) : linkRefTracker m m.active = m := by
  simp [linkRefTracker]

theorem linkRefTracker_ne (m : ModuleState) (T : Nat) (hT : T ≠ m.active) :
    linkRefTracker m T =
      { active := T
        trackers := Function.update
          (Function.update m.trackers m.active (move_to (m.trackers m.active) (m.trackers T)).src)
          T (move_to (m.trackers m.active) (m.trackers T)).tgt
        heap := m.heap
        log := m.log ++ (move_to (m.trackers m.active) (m.trackers T)).log } := by
  simp [linkRefTracker, hT]

theorem linkRefTracker_active (m : ModuleState) (T : Nat) :
    (linkRefTracker m T).active = T := by
  by_cases hT : T = m.active
  · subst hT
    rw [linkRefTracker_same]
  · rw [linkRefTracker_ne m T hT]

/-- A step that is not a link writes to no tracker but the bound one and
keeps the binding. -/
theorem mstep_frame (m m1 : ModuleState) (op : MOp) (hop : ∀ U, op ≠ MOp.link U)
    (h : mstep m op = some m1) :
    refTracker m1 = refTracker m ∧ ∀ U, U ≠ refTracker m → m1.trackers U = m.trackers U := by
  cases op with
  | construct tid p tn =>
    simp only [mstep, ModuleState.construct] at h
    rcases hp : m.heap p with _ | o
    · simp only [hp, Option.some.injEq] at h
      subst h
      exact ⟨rfl, fun U hU => Function.update_noteq hU _ _⟩
    · simp [hp] at h
  | addRef p tn =>
    simp only [mstep, ModuleState.AddRef, Option.map_eq_some'] at h
    obtain ⟨⟨v, m2⟩, h1, h2⟩ := h
    simp only at h2
    subst h2
    rcases hp : m.heap p with _ | o
    · simp [hp] at h1
    · simp only [hp, Option.some.injEq, Prod.mk.injEq] at h1
      obtain ⟨-, h1⟩ := h1
      subst h1
      exact ⟨rfl, fun U hU => Function.update_noteq hU _ _⟩
  | release p tn =>
    simp only [mstep, ModuleState.Release, Option.map_eq_some'] at h
    obtain ⟨⟨v, m2⟩, h1, h2⟩ := h
    simp only at h2
    subst h2
    rcases hp : m.heap p with _ | o
    · simp [hp] at h1
    · simp only [hp, Option.some.injEq, Prod.mk.injEq] at h1
      obtain ⟨-, h1⟩ := h1
      subst h1
      exact ⟨rfl, fun U hU => Function.update_noteq hU _ _⟩
  | link U => exact absurd rfl (hop U)

/-- A tracker that is empty and not bound stays so under every step other
than a link to it. -/
theorem mstep_keeps_orphan (m m1 : ModuleState) (op : MOp) (S : Nat)
    (hop : op ≠ MOp.link S) (hS : m.trackers S = [] ∧ refTracker m ≠ S)
    (h : mstep m op = some m1) :
    m1.trackers S = [] ∧ refTracker m1 ≠ S := by
  by_cases hl : ∀ U, op ≠ MOp.link U
  · obtain ⟨h1, h2⟩ := mstep_frame m m1 op hl h
    refine ⟨?_, ?_⟩
    · rw [h2 S (Ne.symm hS.2)]
      exact hS.1
    · rw [h1]
      exact hS.2
  · push_neg at hl
    obtain ⟨U, hU⟩ := hl
    subst hU
    have hUS : U ≠ S := fun e => hop (by rw [e])
    simp only [mstep, Option.some.injEq] at h
    subst h
    by_cases hUa : U = m.active
    · subst hUa
      rw [linkRefTracker_same]
      exact hS
    · rw [linkRefTracker_ne m U hUa]
      refine ⟨?_, hUS⟩
      show Function.update (Function.update m.trackers m.active _) U _ S = []
      have hSa : S ≠ m.active := Ne.symm hS.2
      rw [Function.update_noteq (Ne.symm hUS), Function.update_noteq hSa]
      exact hS.1

theorem mrun_keeps_orphan (ops : List MOp) (S : Nat) :
    ∀ (m m1 : ModuleState), (∀ op ∈ ops, op ≠ MOp.link S) →
      (m.trackers S = [] ∧ refTracker m ≠ S) → mrun m ops = some m1 →
      m1.trackers S = [] ∧ refTracker m1 ≠ S := by
  induction ops with
  | nil =>
    intro m m1 _ hS h
    simp only [mrun, Option.some.injEq] at h
    subst h
    exact hS
  | cons op ops ih =>
    intro m m1 hops hS h
    simp only [mrun, Option.bind_eq_some] at h
    obtain ⟨m2, h1, h2⟩ := h
    exact ih m2 m1 (fun o ho => hops o (List.mem_cons_of_mem _ ho))
      (mstep_keeps_orphan m m2 op S (hops op (List.mem_cons_self _ _)) hS h1) h2

/-! ## Lemmas on `dump` and on single operations -/

theorem dump_nonempty (demangle : Option String → Option String) (rm : RefMap)
    (h : rm ≠ []) :
    dump demangle rm =
      LogLine.text "=== REACHABLE OBJECT LIST ===" ::
        (rm.map (dumpLine demangle) ++ [LogLine.text "=== REACHABLE OBJECT LIST END ==="]) := by
  cases rm with
  | nil => exact absurd rfl h
  | cons e rest => simp [dump]

theorem countP_dumpLine (demangle : Option String → Option String) (rm : RefMap) (p : Nat) :
    (rm.map (dumpLine demangle)).countP (LogLine.isRecordOf p) = rm.keys.count p := by
  induction rm with
  | nil => rfl
  | cons e rest ih =>
    have ih1 : List.countP (LogLine.isRecordOf p) (List.map (dumpLine demangle) rest)
        = List.count p (List.map Prod.fst rest) := ih
    by_cases h : e.1 = p
    · simp [RefMap.keys, dumpLine, LogLine.isRecordOf, List.countP_cons, List.count_cons, h, ih1]
    · simp [RefMap.keys, dumpLine, LogLine.isRecordOf, List.countP_cons, List.count_cons, h, ih1]

theorem countP_dump (demangle : Option String → Option String) (rm : RefMap) (p : Nat) :
    (dump demangle rm).countP (LogLine.isRecordOf p) = rm.keys.count p := by
  by_cases h : rm = []
  · subst h
    rfl
  · rw [dump_nonempty demangle rm h, List.countP_cons, List.countP_append,
      countP_dumpLine]
    simp [LogLine.isRecordOf]

theorem refUpdate_unknown_origin (name : Option String) (refs : Nat) (rec : Ref)
    (h : rec.unknown_origin = 1) : (refUpdate name refs rec).unknown_origin = 1 := by
  unfold refUpdate
  by_cases hn : rec.name.isNone <;> simp [hn, h]

theorem refUpdate_of_name (name : Option String) (refs : Nat) (rec : Ref) (n : String)
    (h : rec.name = some n) :
    refUpdate name refs rec = { rec with ref_count := refs } := by
  simp [refUpdate, h]

theorem refUpdate_type_thread (name : Option String) (refs : Nat) (rec : Ref) :
    (refUpdate name refs rec).type = rec.type ∧
    (refUpdate name refs rec).create_thread = rec.create_thread := by
  unfold refUpdate
  by_cases hn : rec.name.isNone <;> simp [hn]

/-! ## Lemmas on the feature-level probing loop -/

theorem probeLoop_ge (support : Nat → Bool) (l : List Nat) :
    ∀ k, k ≤ probeLoop support l k := by
  induction l with
  | nil => exact fun k => Nat.le_refl k
  | cons a rest ih =>
    intro k
    by_cases ha : support a = true
    · simp [probeLoop, ha]
    · simp only [probeLoop, ha, Bool.false_eq_true, if_false]
      exact Nat.le_trans (Nat.le_succ k) (ih (k + 1))

/-- The loop either runs off the end, no level being supported, or stops at
the first supported level, which is the greatest supported one when the
array is in descending order. -/
theorem probeLoop_char (support : Nat → Bool) (l : List Nat) :
    ∀ k,
      (probeLoop support l k = k + l.length ∧ ∀ x ∈ l, support x = false) ∨
      (∃ i fl, probeLoop support l k = k + i ∧ i < l.length ∧ l[i]? = some fl ∧
        support fl = true ∧
        (∀ j x, j < i → l[j]? = some x → support x = false) ∧
        (l.Pairwise (fun a b => a ≥ b) → ∀ x ∈ l, support x = true → x ≤ fl)) := by
  induction l with
  | nil =>
    intro k
    left
    exact ⟨rfl, fun x hx => absurd hx (List.not_mem_nil x)⟩
  | cons a rest ih =>
    intro k
    by_cases ha : support a = true
    · right
      refine ⟨0, a, ?_, ?_, List.getElem?_cons_zero, ha, ?_, ?_⟩
      · simp [probeLoop, ha]
      · simp
      · intro j x hj
        exact absurd hj (Nat.not_lt_zero j)
      · intro hp x hx _
        rcases List.mem_cons.1 hx with hxa | hxr
        · rw [hxa]
        · exact (List.pairwise_cons.1 hp).1 x hxr
    · have hfa : support a = false := by
        cases hs : support a
        · rfl
        · exact absurd hs ha
      rcases ih (k + 1) with ⟨h1, h2⟩ | ⟨i, fl, h1, h2, h3, h4, h5, h6⟩
      · left
        refine ⟨?_, ?_⟩
        · simp only [probeLoop, hfa, Bool.false_eq_true, if_false, h1, List.length_cons]
          omega
        · intro x hx
          rcases List.mem_cons.1 hx with hxa | hxr
          · rw [hxa]
            exact hfa
          · exact h2 x hxr
      · right
        refine ⟨i + 1, fl, ?_, ?_, ?_, h4, ?_, ?_⟩
        · simp only [probeLoop, hfa, Bool.false_eq_true, if_false, h1]
          omega
        · simp only [List.length_cons]
          omega
        · simpa using h3
        · intro j x hj hjx
          cases j with
          | zero =>
            simp only [List.getElem?_cons_zero, Option.some.injEq] at hjx
            rw [← hjx]
            exact hfa
          | succ j =>
            simp only [List.getElem?_cons_succ] at hjx
            exact h5 j x (by omega) hjx
        · intro hp x hx hsx
          rcases List.mem_cons.1 hx with hxa | hxr
          · rw [hxa, hfa] at hsx
            cases hsx
          · exact h6 (List.pairwise_cons.1 hp).2 x hxr hsx

/-! ## The claims -/

/-- C1: starting from the empty tracker and no objects, after every finite
sequence of construct / AddRef / Release operations (on live objects, at
addresses not in use when constructing), every live object has a record whose
`ref_count` equals its counter, and every record belongs to a live object. -/
theorem tracker_mirrors_truth (ops : List Op) (w : World)
    (h : run World.empty ops = some w) :
    (∀ p obj, w.heap p = some obj →
        ∃ r, w.rm.find p = some r ∧ r.ref_count = obj.m_refCount) ∧
    (∀ p r, w.rm.find p = some r → ∃ obj, w.heap p = some obj) :=
  Mirrors_run ops World.empty w Mirrors_empty h

/-- C1, at a concrete sequence: two objects, one of them released to zero. -/
theorem tracker_mirrors_truth_witness :
    ∃ w, run World.empty
        [Op.construct 1 100 "T", Op.addRef 100 "U", Op.construct 1 200 "T",
          Op.addRef 200 "U", Op.addRef 200 "U", Op.release 100 "U"] = some w ∧
      ((∀ p obj, w.heap p = some obj →
          ∃ r, w.rm.find p = some r ∧ r.ref_count = obj.m_refCount) ∧
       (∀ p r, w.rm.find p = some r → ∃ obj, w.heap p = some obj)) :=
  ⟨_, rfl, tracker_mirrors_truth
    [Op.construct 1 100 "T", Op.addRef 100 "U", Op.construct 1 200 "T",
      Op.addRef 200 "U", Op.addRef 200 "U", Op.release 100 "U"] _ rfl⟩

/-- C2: `Release` on a live object with counter `c` returns `c - 1` modulo
`2^32`.  When that is 0 the object is gone, the tracker map is the result of
`destroy` and holds no record for the object.  Otherwise the object lives on
with the returned counter and its record carries the returned value. -/
theorem Release_spec (w : World) (p : Nat) (tn : String) (o : ComObject)
    (hp : w.heap p = some o) :
    ∃ v w1, w.Release p tn = some (v, w1) ∧
      (v : Int) = ((o.m_refCount : Int) - 1) % 2 ^ 32 ∧
      (v = 0 → w1.heap p = none ∧ w1.rm = destroy w.rm p ∧ w1.rm.find p = none) ∧
      (v ≠ 0 → w1.heap p = some { m_refCount := v } ∧
        ∃ r, w1.rm.find p = some r ∧ r.ref_count = v) := by
  by_cases hz : (o.m_refCount + ULONG_MOD - 1) % ULONG_MOD = 0
  · refine ⟨0, _, World_Release_zero w p tn o hp hz, ?_, ?_, ?_⟩
    · rw [← pred_mod_cast, hz]
    · intro _
      exact ⟨Function.update_same _ _ _, rfl, RefMap.find_erase_self _ _⟩
    · intro h
      exact absurd rfl h
  · refine ⟨_, _, World_Release_nonzero w p tn o hp hz, pred_mod_cast _, ?_, ?_⟩
    · intro h
      exact absurd h hz
    · intro _
      exact ⟨Function.update_same _ _ _, find_ref_self _ _ _ _⟩

/-- C2, at concrete inputs: a counter of 1 is released to zero. -/
theorem Release_spec_witness :
    ∃ v w1, World.Release
        { rm := [(100, { name := some "T", ref_count := 1 })]
          heap := Function.update (fun _ => none) 100 (some { m_refCount := 1 }) }
        100 "T" = some (v, w1) ∧
      (v : Int) = (((1 : Nat) : Int) - 1) % 2 ^ 32 ∧
      (v = 0 → w1.heap 100 = none ∧
        w1.rm = destroy [(100, { name := some "T", ref_count := 1 })] 100 ∧
        w1.rm.find 100 = none) ∧
      (v ≠ 0 → w1.heap 100 = some { m_refCount := v } ∧
        ∃ r, w1.rm.find 100 = some r ∧ r.ref_count = v) :=
  Release_spec
    { rm := [(100, { name := some "T", ref_count := 1 })]
      heap := Function.update (fun _ => none) 100 (some { m_refCount := 1 }) }
    100 "T" { m_refCount := 1 } (by simp)

/-- C3: `AddRef` on a live object with counter `c` returns `(c + 1) % 2^32`,
leaves the object alive with that counter, and the record of the object in
the tracker then carries the returned value. -/
theorem AddRef_spec (w : World) (p : Nat) (tn : String) (o : ComObject)
    (hp : w.heap p = some o) :
    ∃ v w1, w.AddRef p tn = some (v, w1) ∧
      v = (o.m_refCount + 1) % 2 ^ 32 ∧
      w1.heap p = some { m_refCount := v } ∧
      w1.rm = ref w.rm p (some tn) v ∧
      ∃ r, w1.rm.find p = some r ∧ r.ref_count = v :=
  ⟨_, _, World_AddRef_live w p tn o hp, rfl, Function.update_same _ _ _, rfl,
    find_ref_self _ _ _ _⟩

/-- C3, at concrete inputs: the counter wraps from `2^32 - 1` to 0 and the
object stays alive. -/
theorem AddRef_spec_witness :
    ∃ v w1, World.AddRef
        { rm := [(100, { name := some "T", ref_count := 4294967295 })]
          heap := Function.update (fun _ => none) 100 (some { m_refCount := 4294967295 }) }
        100 "T" = some (v, w1) ∧
      v = (4294967295 + 1) % 2 ^ 32 ∧
      w1.heap 100 = some { m_refCount := v } ∧
      w1.rm = ref [(100, { name := some "T", ref_count := 4294967295 })] 100 (some "T") v ∧
      ∃ r, w1.rm.find 100 = some r ∧ r.ref_count = v :=
  AddRef_spec
    { rm := [(100, { name := some "T", ref_count := 4294967295 })]
      heap := Function.update (fun _ => none) 100 (some { m_refCount := 4294967295 }) }
    100 "T" { m_refCount := 4294967295 } (by simp)

/-- C4, as stated, fails: a freshly constructed object does not have counter
2, its first `AddRef` does not return 3 and the record does not show 3. -/
theorem fresh_counter_not_two :
    (ComObject.construct [] 1 100 "T").1.m_refCount ≠ 2 ∧
    (ComObject.AddRef (ComObject.construct [] 1 100 "T").2 100
        (ComObject.construct [] 1 100 "T").1 "T").1 ≠ 3 ∧
    ((ComObject.AddRef (ComObject.construct [] 1 100 "T").2 100
        (ComObject.construct [] 1 100 "T").1 "T").2.2.find 100).map Ref.ref_count
      ≠ some 3 := by
  decide

/-- C4, amended: a freshly constructed object has counter 0 (the 2 of the
constructor is the category handed to `create`); its first `AddRef` returns 1
and the record of the object then shows `ref_count = 1` and category 2. -/
theorem fresh_counter_zero (rm : RefMap) (tid this : Nat) (tn0 tn : String) :
    (ComObject.construct rm tid this tn0).1.m_refCount = 0 ∧
    (ComObject.AddRef (ComObject.construct rm tid this tn0).2 this
        (ComObject.construct rm tid this tn0).1 tn).1 = 1 ∧
    ∃ r, (ComObject.AddRef (ComObject.construct rm tid this tn0).2 this
        (ComObject.construct rm tid this tn0).1 tn).2.2.find this = some r ∧
      r.ref_count = 1 ∧ r.type = 2 := by
  refine ⟨rfl, ?_, ?_⟩
  · simp [ComObject.AddRef, ComObject.construct, ULONG_MOD]
  · simp [ComObject.AddRef, ComObject.construct, ULONG_MOD, ref, create,
      RefMap.find_modifyAt_self, refUpdate, USHORT_MOD]

/-- C5: for `1 ≤ N < 2^32` and an object freshly constructed at a free
address, `N` calls of `AddRef` followed by `N` calls of `Release` all go
through; the object is alive with a record after every `AddRef` and after
each of the first `N - 1` releases; the `N`-th release returns 0 and destroys
it, after which the tracker has no record for it and `dump` logs no line for
it. -/
theorem count_round_trip (w : World) (tid p : Nat) (tn0 tn : String) (N : Nat)
    (demangle : Option String → Option String)
    (hfresh : w.heap p = none) (h1 : 1 ≤ N) (h2 : N < 2 ^ 32) :
    ∃ w0 wN wl wf,
      w.construct tid p tn0 = some w0 ∧
      (∀ k, k ≤ N → ∃ wk, addRefN p tn k w0 = some wk ∧
          wk.heap p = some { m_refCount := k } ∧ (wk.rm.find p).isSome = true) ∧
      addRefN p tn N w0 = some wN ∧
      (∀ j, j < N → ∃ wj, releaseN p tn j wN = some wj ∧
          wj.heap p = some { m_refCount := N - j } ∧ (wj.rm.find p).isSome = true) ∧
      releaseN p tn (N - 1) wN = some wl ∧
      wl.Release p tn = some (0, wf) ∧
      wf.heap p = none ∧ wf.rm.find p = none ∧
      ∀ l ∈ dump demangle wf.rm, l.isRecordOf p = false := by
  have hM : N < ULONG_MOD := by
    rw [ULONG_MOD_eq]
    exact h2
  obtain ⟨w0, hc, hh0, hr0⟩ : ∃ w0, w.construct tid p tn0 = some w0 ∧
      w0.heap p = some { m_refCount := 0 } ∧ (w0.rm.find p).isSome = true := by
    refine ⟨{ rm := create w.rm tid p 2 (some tn0)
              heap := Function.update w.heap p (some { m_refCount := 0 }) }, ?_,
      Function.update_same _ _ _, ?_⟩
    · simp only [World.construct, hfresh, ComObject.construct]
    · simp [create, RefMap.find_modifyAt_self]
  have hadd : ∀ k, k ≤ N → ∃ wk, addRefN p tn k w0 = some wk ∧
      wk.heap p = some { m_refCount := k } ∧ (wk.rm.find p).isSome = true := by
    intro k hk
    obtain ⟨wk, a1, a2, a3⟩ := addRefN_spec p tn k w0 0 hh0 hr0
      (by rw [Nat.zero_add]; exact Nat.lt_of_le_of_lt hk hM)
    rw [Nat.zero_add] at a2
    exact ⟨wk, a1, a2, a3⟩
  obtain ⟨wN, n1, n2, n3⟩ := hadd N (Nat.le_refl N)
  have hrel : ∀ j, j < N → ∃ wj, releaseN p tn j wN = some wj ∧
      wj.heap p = some { m_refCount := N - j } ∧ (wj.rm.find p).isSome = true :=
    fun j hj => releaseN_spec p tn j wN N n2 n3 hj hM
  obtain ⟨wl, l1, l2, _⟩ := hrel (N - 1) (Nat.sub_lt h1 Nat.one_pos)
  have hone : N - (N - 1) = 1 := by omega
  rw [hone] at l2
  have hz : (({ m_refCount := 1 } : ComObject).m_refCount + ULONG_MOD - 1) % ULONG_MOD = 0 := by
    show (1 + ULONG_MOD - 1) % ULONG_MOD = 0
    rw [Nat.add_sub_cancel_left, Nat.mod_self]
  refine ⟨w0, wN, wl, _, hc, hadd, n1, hrel, l1, World_Release_zero wl p tn _ l2 hz,
    Function.update_same _ _ _, RefMap.find_erase_self _ _, ?_⟩
  exact dump_no_record demangle _ p (RefMap.find_erase_self _ _)

/-- C5, at `N = 2` on the empty world. -/
theorem count_round_trip_witness :
    ∃ w0 wN wl wf,
      World.empty.construct 1 100 "T" = some w0 ∧
      (∀ k, k ≤ 2 → ∃ wk, addRefN 100 "U" k w0 = some wk ∧
          wk.heap 100 = some { m_refCount := k } ∧ (wk.rm.find 100).isSome = true) ∧
      addRefN 100 "U" 2 w0 = some wN ∧
      (∀ j, j < 2 → ∃ wj, releaseN 100 "U" j wN = some wj ∧
          wj.heap 100 = some { m_refCount := 2 - j } ∧ (wj.rm.find 100).isSome = true) ∧
      releaseN 100 "U" (2 - 1) wN = some wl ∧
      wl.Release 100 "U" = some (0, wf) ∧
      wf.heap 100 = none ∧ wf.rm.find 100 = none ∧
      ∀ l ∈ dump (fun n => n) wf.rm, l.isRecordOf 100 = false :=
  count_round_trip World.empty 1 100 "T" "U" 2 (fun n => n) rfl (by decide) (by decide)

/-- C6: `create` always yields a map with a record for `ptr` that has the
supplied name, the supplied type reduced modulo `2^16` (the supplied type
itself when it lies in `0 .. 65535`), the calling thread, `ref_count = 0` and
`unknown_origin = 0`, whatever the map held before. -/
theorem create_spec (rm : RefMap) (tid ptr : Nat) (type : Int) (name : Option String) :
    ∃ r, (create rm tid ptr type name).find ptr = some r ∧
      r.name = name ∧
      (r.type : Int) = type % 2 ^ 16 ∧
      (0 ≤ type ∧ type < 65536 → (r.type : Int) = type) ∧
      r.create_thread = some tid ∧
      r.ref_count = 0 ∧
      r.unknown_origin = 0 := by
  have ht : (((type % (USHORT_MOD : Int)).toNat : Nat) : Int) = type % 2 ^ 16 := by
    have : (USHORT_MOD : Int) = 65536 := by norm_num [USHORT_MOD]
    rw [this]
    omega
  refine ⟨_, RefMap.find_modifyAt_self rm ptr _, rfl, ht, ?_, rfl, rfl, rfl⟩
  intro h
  rw [ht]
  omega

/-- C6, at concrete inputs: an existing unknown-origin record is overwritten. -/
theorem create_spec_witness :
    ∃ r, (create [(7, { name := some "old", type := 9, ref_count := 5, unknown_origin := 1 })]
        3 7 2 (some "T")).find 7 = some r ∧
      r.name = some "T" ∧
      (r.type : Int) = 2 % 2 ^ 16 ∧
      (0 ≤ (2 : Int) ∧ (2 : Int) < 65536 → (r.type : Int) = 2) ∧
      r.create_thread = some 3 ∧
      r.ref_count = 0 ∧
      r.unknown_origin = 0 :=
  create_spec [(7, { name := some "old", type := 9, ref_count := 5, unknown_origin := 1 })]
    3 7 2 (some "T")

/-- C7: on a map without a record for `ptr`, `ref` leaves a record for `ptr`
with `unknown_origin = 1`, the name of this call and `ref_count = refs`. -/
theorem ref_unknown_origin (rm : RefMap) (ptr : Nat) (name : Option String) (refs : Nat)
    (h : rm.find ptr = none) :
    (ref rm ptr name refs).find ptr =
      some { name := name, create_thread := none, type := 0, ref_count := refs,
             unknown_origin := 1 } := by
  rw [ref, RefMap.find_modifyAt_self, h]
  rfl

/-- C7, at concrete inputs. -/
theorem ref_unknown_origin_witness :
    (ref [(7, { name := some "T" })] 8 (some "U") 3).find 8 =
      some { name := some "U", create_thread := none, type := 0, ref_count := 3,
             unknown_origin := 1 } :=
  ref_unknown_origin [(7, { name := some "T" })] 8 (some "U") 3 rfl

/-- C8: `destroy` is total; afterwards no record for `ptr` remains; when no
record for `ptr` existed the map is unchanged; and `destroy` is idempotent. -/
theorem destroy_spec (rm : RefMap) (ptr : Nat) :
    (destroy rm ptr).find ptr = none ∧
    (rm.find ptr = none → destroy rm ptr = rm) ∧
    destroy (destroy rm ptr) ptr = destroy rm ptr :=
  ⟨RefMap.find_erase_self rm ptr, RefMap.erase_of_find_none rm ptr,
    RefMap.erase_of_find_none _ ptr (RefMap.find_erase_self rm ptr)⟩

/-- C8, at concrete inputs: a hit and a miss. -/
theorem destroy_spec_witness :
    ((destroy [(7, { name := some "T" }), (8, {})] 7).find 7 = none ∧
      ((RefMap.find [(7, { name := some "T" }), (8, {})] 7 = none →
        destroy [(7, { name := some "T" }), (8, {})] 7 = [(7, { name := some "T" }), (8, {})])) ∧
      destroy (destroy [(7, { name := some "T" }), (8, {})] 7) 7
        = destroy [(7, { name := some "T" }), (8, {})] 7) ∧
    destroy [(7, { name := some "T" }), (8, {})] 9 = [(7, { name := some "T" }), (8, {})] :=
  ⟨destroy_spec [(7, { name := some "T" }), (8, {})] 7,
    (destroy_spec [(7, { name := some "T" }), (8, {})] 9).2.1 rfl⟩

/-- C9: for well-formed maps `A` and `B` of two different trackers, after
`A.move_to(B)` the keys of `B` are exactly the keys that were in `A` or in
`B`, each once; a key only in `A` has in `B` the record of `A` unchanged; a
key not in `A` keeps its entry of `B`; and the map of `A` is empty. -/
theorem move_to_no_loss (A B : RefMap) (hA : A.WF) (hB : B.WF) :
    (∀ q, q ∈ (move_to A B).tgt.keys ↔ q ∈ A.keys ∨ q ∈ B.keys) ∧
    (move_to A B).tgt.keys.Nodup ∧
    (∀ q r, A.find q = some r → B.find q = none → (move_to A B).tgt.find q = some r) ∧
    (∀ q, A.find q = none → (move_to A B).tgt.find q = B.find q) ∧
    (move_to A B).src = [] := by
  refine ⟨mem_keys_foldl_moveStep A B, WF_foldl_moveStep A B hB, ?_, ?_, rfl⟩
  · intro q r ha hb
    show (A.foldl moveStep B).find q = some r
    rw [find_foldl_moveStep A B q hA, ha, hb]
    rfl
  · intro q ha
    show (A.foldl moveStep B).find q = B.find q
    rw [find_foldl_moveStep A B q hA, ha]
    rfl

/-- C9, at concrete inputs: keys 1 and 2 in `A`, keys 1 and 3 in `B`. -/
theorem move_to_no_loss_witness :
    (∀ q, q ∈ (move_to
          [(1, { name := some "a", unknown_origin := 1 }), (2, { name := some "b", ref_count := 4 })]
          [(1, { name := none, ref_count := 7, unknown_origin := 1 }), (3, {})]).tgt.keys ↔
        q ∈ RefMap.keys
          [(1, { name := some "a", unknown_origin := 1 }), (2, { name := some "b", ref_count := 4 })] ∨
        q ∈ RefMap.keys [(1, { name := none, ref_count := 7, unknown_origin := 1 }), (3, {})]) ∧
    (move_to
      [(1, { name := some "a", unknown_origin := 1 }), (2, { name := some "b", ref_count := 4 })]
      [(1, { name := none, ref_count := 7, unknown_origin := 1 }), (3, {})]).tgt.keys.Nodup ∧
    (move_to
      [(1, { name := some "a", unknown_origin := 1 }), (2, { name := some "b", ref_count := 4 })]
      [(1, { name := none, ref_count := 7, unknown_origin := 1 }), (3, {})]).tgt.find 2
      = some { name := some "b", ref_count := 4 } ∧
    (move_to
      [(1, { name := some "a", unknown_origin := 1 }), (2, { name := some "b", ref_count := 4 })]
      [(1, { name := none, ref_count := 7, unknown_origin := 1 }), (3, {})]).tgt.find 3
      = some {} ∧
    (move_to
      [(1, { name := some "a", unknown_origin := 1 }), (2, { name := some "b", ref_count := 4 })]
      [(1, { name := none, ref_count := 7, unknown_origin := 1 }), (3, {})]).src = [] :=
  have h := move_to_no_loss
    [(1, { name := some "a", unknown_origin := 1 }), (2, { name := some "b", ref_count := 4 })]
    [(1, { name := none, ref_count := 7, unknown_origin := 1 }), (3, {})]
    (by decide) (by decide)
  ⟨h.1, h.2.1, h.2.2.1 2 _ rfl rfl, h.2.2.2.1 3 rfl, h.2.2.2.2⟩

/-- C10: for a well-formed source map `A` and a key with a record `a` in `A`
and a record `b` in `B`, after `A.move_to(B)` the record of `B` for that key
has the name of `a` and `unknown_origin = 0`, whatever the flag of `a` was,
and keeps `ref_count`, `type` and `create_thread` of `b`. -/
theorem move_to_collision (A B : RefMap) (hA : A.WF) (q : Nat) (a b : Ref)
    (ha : A.find q = some a) (hb : B.find q = some b) :
    (move_to A B).tgt.find q =
      some { name := a.name, create_thread := b.create_thread, type := b.type,
             ref_count := b.ref_count, unknown_origin := 0 } := by
  show (A.foldl moveStep B).find q = _
  rw [find_foldl_moveStep A B q hA, ha, hb]
  rfl

/-- C10, at concrete inputs: the source record is itself of unknown origin,
and the flag of the target record is cleared all the same. -/
theorem move_to_collision_witness :
    (move_to
      [(1, { name := some "a", ref_count := 2, unknown_origin := 1 }), (2, { name := some "b" })]
      [(1, { name := some "x", create_thread := some 5, type := 2, ref_count := 7,
             unknown_origin := 1 }), (3, {})]).tgt.find 1 =
      some { name := some "a", create_thread := some 5, type := 2, ref_count := 7,
             unknown_origin := 0 } :=
  move_to_collision
    [(1, { name := some "a", ref_count := 2, unknown_origin := 1 }), (2, { name := some "b" })]
    [(1, { name := some "x", create_thread := some 5, type := 2, ref_count := 7,
           unknown_origin := 1 }), (3, {})]
    (by decide) 1
    { name := some "a", ref_count := 2, unknown_origin := 1 }
    { name := some "x", create_thread := some 5, type := 2, ref_count := 7, unknown_origin := 1 }
    rfl rfl

/-- C11: when the candidate tracker `T` is not the bound tracker `S`, after
`linkRefTracker(T)` the bound tracker is `T`, the map of `S` is empty, the
map of `T` is the target map of `S.move_to(T)` on the maps before, and no
other tracker changes.  For well-formed maps the keys of `T` are then the
keys of either map, and a key with a record `a` in `S` and `b` in `T` has in
`T` the record `b` with the name of `a` and `unknown_origin = 0`. -/
theorem linkRefTracker_spec (m : ModuleState) (T : Nat) (hT : T ≠ refTracker m) :
    refTracker (linkRefTracker m T) = T ∧
    (linkRefTracker m T).trackers (refTracker m) = [] ∧
    (linkRefTracker m T).trackers T
      = (move_to (m.trackers (refTracker m)) (m.trackers T)).tgt ∧
    (∀ U, U ≠ T → U ≠ refTracker m → (linkRefTracker m T).trackers U = m.trackers U) ∧
    ((m.trackers (refTracker m)).WF → (m.trackers T).WF →
      ((linkRefTracker m T).trackers T).WF ∧
      ∀ q, q ∈ ((linkRefTracker m T).trackers T).keys ↔
        q ∈ (m.trackers (refTracker m)).keys ∨ q ∈ (m.trackers T).keys) ∧
    ((m.trackers (refTracker m)).WF → ∀ Y a b,
      (m.trackers (refTracker m)).find Y = some a → (m.trackers T).find Y = some b →
      ((linkRefTracker m T).trackers T).find Y =
        some { name := a.name, create_thread := b.create_thread, type := b.type,
               ref_count := b.ref_count, unknown_origin := 0 }) := by
  have hT1 : T ≠ m.active := hT
  have htgt : (linkRefTracker m T).trackers T
      = (m.trackers m.active).foldl moveStep (m.trackers T) := by
    rw [linkRefTracker_ne m T hT1]
    exact Function.update_same _ _ _
  refine ⟨linkRefTracker_active m T, ?_, htgt, ?_, ?_, ?_⟩
  · rw [linkRefTracker_ne m T hT1]
    show Function.update (Function.update m.trackers m.active _) T _ m.active = []
    rw [Function.update_noteq (Ne.symm hT1), Function.update_same]
    rfl
  · intro U hUT hUS
    have hUS1 : U ≠ m.active := hUS
    rw [linkRefTracker_ne m T hT1]
    show Function.update (Function.update m.trackers m.active _) T _ U = m.trackers U
    rw [Function.update_noteq hUT, Function.update_noteq hUS1]
  · intro _ hB
    rw [htgt]
    exact ⟨WF_foldl_moveStep _ _ hB, mem_keys_foldl_moveStep _ _⟩
  · intro hA Y a b ha hb
    have ha1 : (m.trackers m.active).find Y = some a := ha
    have hA1 : (m.trackers m.active).WF := hA
    rw [htgt, find_foldl_moveStep (m.trackers m.active) (m.trackers T) Y hA1, ha1, hb]
    rfl

/-- C11, in the scenario: the bound tracker 0 holds the created record of
address 5, tracker 1 holds a synthesised record with `unknown_origin = 1`;
after linking tracker 1, its record has `unknown_origin = 0` and the name from
tracker 0. -/
theorem linkRefTracker_spec_witness :
    ((linkRefTracker scenarioState 1).trackers 1).find 5 =
      some { name := some "Y", create_thread := none, type := 0, ref_count := 3,
             unknown_origin := 0 } ∧
    (linkRefTracker scenarioState 1).trackers 0 = [] ∧
    refTracker (linkRefTracker scenarioState 1) = 1 :=
  have h := linkRefTracker_spec scenarioState 1 (by decide)
  ⟨h.2.2.2.2.2 (by decide) 5
      { name := some "Y", create_thread := some 1, type := 2, ref_count := 0,
        unknown_origin := 0 }
      { name := some "Z", create_thread := none, type := 0, ref_count := 3,
        unknown_origin := 1 }
      (by decide) (by decide),
    h.2.1, h.1⟩

/-- C12: `linkRefTracker` with the bound tracker leaves the whole state
(binding, maps, objects, log) as it is, and linking the same tracker twice
gives the state of linking it once. -/
theorem linkRefTracker_idempotent (m : ModuleState) (T : Nat) :
    (T = refTracker m → linkRefTracker m T = m) ∧
    linkRefTracker (linkRefTracker m T) T = linkRefTracker m T := by
  refine ⟨?_, ?_⟩
  · intro h
    have h1 : T = m.active := h
    subst h1
    exact linkRefTracker_same m
  · have h := linkRefTracker_same (linkRefTracker m T)
    rw [linkRefTracker_active m T] at h
    exact h

/-- C12, in the scenario: linking the bound tracker 0 changes nothing, and
linking tracker 1 twice is linking it once. -/
theorem linkRefTracker_idempotent_witness :
    linkRefTracker scenarioState 0 = scenarioState ∧
    linkRefTracker (linkRefTracker scenarioState 1) 1 = linkRefTracker scenarioState 1 :=
  ⟨(linkRefTracker_idempotent scenarioState 0).1 rfl,
    (linkRefTracker_idempotent scenarioState 1).2⟩

/-- C13: `dump` on a map without records logs nothing; on a map with
`n ≥ 1` records it logs the start banner, the line of every record in turn
and the end banner, `n + 2` lines in all; in a well-formed map every key has
exactly one line, and an address without a record has none; and the map of
the tracker is the same after `dump`. -/
theorem dump_shape (demangle : Option String → Option String) (rm : RefMap) :
    (rm = [] → dump demangle rm = []) ∧
    (rm ≠ [] →
      dump demangle rm =
        LogLine.text "=== REACHABLE OBJECT LIST ===" ::
          (rm.map (dumpLine demangle) ++
            [LogLine.text "=== REACHABLE OBJECT LIST END ==="]) ∧
      (dump demangle rm).length = rm.length + 2) ∧
    (rm.WF → ∀ p ∈ rm.keys, (dump demangle rm).countP (LogLine.isRecordOf p) = 1) ∧
    (∀ p, p ∉ rm.keys → (dump demangle rm).countP (LogLine.isRecordOf p) = 0) ∧
    (applyOp demangle rm TrackerOp.dump).1 = rm := by
  refine ⟨?_, ?_, ?_, ?_, rfl⟩
  · intro h
    subst h
    rfl
  · intro h
    refine ⟨dump_nonempty demangle rm h, ?_⟩
    rw [dump_nonempty demangle rm h]
    simp
  · intro hwf p hp
    rw [countP_dump]
    exact List.count_eq_one_of_mem hwf hp
  · intro p hp
    rw [countP_dump]
    exact List.count_eq_zero_of_not_mem hp

/-- C13, at concrete inputs: the empty map and a map of two records. -/
theorem dump_shape_witness :
    dump (fun n => n) [] = [] ∧
    (dump (fun n => n) [(7, { name := some "T" }), (8, {})]).length = 2 + 2 ∧
    (dump (fun n => n) [(7, { name := some "T" }), (8, {})]).countP (LogLine.isRecordOf 8) = 1 :=
  ⟨(dump_shape (fun n => n) []).1 rfl,
    ((dump_shape (fun n => n) [(7, { name := some "T" }), (8, {})]).2.1 (by decide)).2,
    (dump_shape (fun n => n) [(7, { name := some "T" }), (8, {})]).2.2.1 (by decide) 8
      (by decide)⟩

/-- C14, as stated, fails: `create` on the identity of a record with
`unknown_origin = 1` leaves a record for it with `unknown_origin = 0`. -/
theorem create_clears_unknown_origin :
    (RefMap.find [(7, { name := some "U", ref_count := 3, unknown_origin := 1 })] 7).map
        Ref.unknown_origin = some 1 ∧
    ((applyOp (fun n => n) [(7, { name := some "U", ref_count := 3, unknown_origin := 1 })]
        (TrackerOp.create 1 7 2 (some "T"))).1.find 7).map Ref.unknown_origin = some 0 := by
  decide

/-- C14, amended: when the record of `q` has `unknown_origin = 1`, every
single `create` on another identity, `ref`, `destroy` or `dump` leaves a
record of `q`, if any, with `unknown_origin = 1`; `create` on `q` itself
writes a record with `unknown_origin = 0`. -/
theorem unknown_origin_sticky (demangle : Option String → Option String) (rm : RefMap)
    (q : Nat) (r : Ref) (hq : rm.find q = some r) (hu : r.unknown_origin = 1) :
    (∀ op r1, (∀ tid type name, op ≠ TrackerOp.create tid q type name) →
      (applyOp demangle rm op).1.find q = some r1 → r1.unknown_origin = 1) ∧
    (∀ tid type name, ∃ r1,
      (applyOp demangle rm (TrackerOp.create tid q type name)).1.find q = some r1 ∧
      r1.unknown_origin = 0) := by
  refine ⟨?_, ?_⟩
  · intro op r1 hop h
    cases op with
    | create tid p type name =>
      have hpq : q ≠ p := fun e => hop tid type name (by rw [e])
      simp only [applyOp, create, RefMap.find_modifyAt_ne _ _ _ _ hpq, hq,
        Option.some.injEq] at h
      rw [← h]
      exact hu
    | ref p name refs =>
      by_cases hpq : q = p
      · subst hpq
        simp only [applyOp, ref, RefMap.find_modifyAt_self, hq, Option.getD_some,
          Option.some.injEq] at h
        rw [← h]
        exact refUpdate_unknown_origin name refs r hu
      · simp only [applyOp, ref, RefMap.find_modifyAt_ne _ _ _ _ hpq, hq,
          Option.some.injEq] at h
        rw [← h]
        exact hu
    | destroy p =>
      by_cases hpq : q = p
      · subst hpq
        simp [applyOp, destroy, RefMap.find_erase_self] at h
      · simp only [applyOp, destroy, RefMap.find_erase_ne _ _ _ hpq, hq,
          Option.some.injEq] at h
        rw [← h]
        exact hu
    | dump =>
      simp only [applyOp, hq, Option.some.injEq] at h
      rw [← h]
      exact hu
  · intro tid type name
    exact ⟨_, RefMap.find_modifyAt_self rm q _, rfl⟩

/-- C14 amended, at concrete inputs: `ref` on the flagged record keeps the
flag. -/
theorem unknown_origin_sticky_witness :
    ((applyOp (fun n => n) [(7, { name := some "U", ref_count := 3, unknown_origin := 1 })]
        (TrackerOp.ref 7 (some "T") 4)).1.find 7).map Ref.unknown_origin = some 1 ∧
    ∀ r1, (applyOp (fun n => n) [(7, { name := some "U", ref_count := 3, unknown_origin := 1 })]
        (TrackerOp.ref 7 (some "T") 4)).1.find 7 = some r1 → r1.unknown_origin = 1 :=
  ⟨by decide,
    fun r1 => (unknown_origin_sticky (fun n => n)
      [(7, { name := some "U", ref_count := 3, unknown_origin := 1 })] 7
      { name := some "U", ref_count := 3, unknown_origin := 1 } rfl rfl).1
      (TrackerOp.ref 7 (some "T") 4) r1 (by intro tid type name h; cases h)⟩

/-- C15, the code at the failing input: a record written by `create` with a
null name has `unknown_origin = 0`, and the next `ref` on it sets
`unknown_origin = 1` while filling in the name. -/
theorem ref_after_nameless_create :
    (create [] 1 7 2 none).find 7 =
      some { name := none, create_thread := some 1, type := 2, ref_count := 0,
             unknown_origin := 0 } ∧
    (ref (create [] 1 7 2 none) 7 (some "T") 1).find 7 =
      some { name := some "T", create_thread := some 1, type := 2, ref_count := 1,
             unknown_origin := 1 } := by
  decide

/-- C16, as stated, fails: the two directions of a merge between trackers 1
and 2 lock the two mutexes in different orders. -/
theorem move_to_locks_not_fixed : move_to_locks 1 2 ≠ move_to_locks 2 1 := by
  decide

/-- C16, amended: `move_to` locks the mutex of the target first and then the
mutex of the source, so the merge in the opposite direction locks the same
two mutexes in the reverse order. -/
theorem move_to_locks_order (A B : Nat) :
    move_to_locks A B = [B, A] ∧
    move_to_locks B A = (move_to_locks A B).reverse :=
  ⟨rfl, rfl⟩

/-- C17: after `linkRefTracker(T)` has replaced the bound tracker `S` by
`T ≠ S`, every run of construct / AddRef / Release / link steps that does not
link `S` again ends with the map of `S` empty and `S` not bound.  This is so
because every construct, AddRef or Release step, in every state, keeps the
binding and writes to no tracker other than the one bound at that time. -/
theorem merged_away_never_targeted (m : ModuleState) (T : Nat) (hT : T ≠ refTracker m) :
    (∀ ops m1, (∀ op ∈ ops, op ≠ MOp.link (refTracker m)) →
      mrun (linkRefTracker m T) ops = some m1 →
      m1.trackers (refTracker m) = [] ∧ refTracker m1 ≠ refTracker m) ∧
    (∀ m0 op m1, (∀ U, op ≠ MOp.link U) → mstep m0 op = some m1 →
      refTracker m1 = refTracker m0 ∧
      ∀ U, U ≠ refTracker m0 → m1.trackers U = m0.trackers U) := by
  have hT1 : T ≠ m.active := hT
  refine ⟨?_, fun m0 op m1 hop h => mstep_frame m0 m1 op hop h⟩
  intro ops m1 hops hrun
  refine mrun_keeps_orphan ops m.active (linkRefTracker m T) m1 hops ⟨?_, ?_⟩ hrun
  · rw [linkRefTracker_ne m T hT1]
    show Function.update (Function.update m.trackers m.active _) T _ m.active = []
    rw [Function.update_noteq (Ne.symm hT1), Function.update_same]
    rfl
  · show (linkRefTracker m T).active ≠ m.active
    rw [linkRefTracker_active]
    exact hT1

/-- C17, in the scenario: after linking tracker 1, an AddRef on the object
registered before the link, a construction, a release and a link to a third
tracker leave the map of tracker 0 empty. -/
theorem merged_away_never_targeted_witness :
    ∃ m1, mrun (linkRefTracker scenarioState 1)
        [MOp.addRef 5 "Y", MOp.construct 1 6 "W", MOp.release 5 "Y", MOp.link 2,
          MOp.addRef 6 "W"] = some m1 ∧
      m1.trackers (refTracker scenarioState) = [] ∧
      refTracker m1 ≠ refTracker scenarioState :=
  ⟨_, rfl, (merged_away_never_targeted scenarioState 1 (by decide)).1
    [MOp.addRef 5 "Y", MOp.construct 1 6 "W", MOp.release 5 "Y", MOp.link 2,
      MOp.addRef 6 "W"] _ (by decide) rfl⟩

/-- C18, as stated, fails: with every level supported and the request
`[9_1, 11_0]`, the level chosen and written back is 9_1, although 11_0 is
requested, supported and higher. -/
theorem selectFeatureLevel_not_highest :
    selectFeatureLevel (fun _ => true)
        (some [D3D_FEATURE_LEVEL_9_1, D3D_FEATURE_LEVEL_11_0]) true
      = LevelOutcome.proceed 0 D3D_FEATURE_LEVEL_9_1 (some D3D_FEATURE_LEVEL_9_1) ∧
    D3D_FEATURE_LEVEL_11_0 ∈ [D3D_FEATURE_LEVEL_9_1, D3D_FEATURE_LEVEL_11_0] ∧
    D3D_FEATURE_LEVEL_9_1 < D3D_FEATURE_LEVEL_11_0 := by
  decide

/-- C18, amended: over the requested array (the six defaults for a null
pointer or a count of 0), when some requested level is supported the level
chosen and written back is the first supported one in array order, which is
the highest supported one whenever the array is in descending order, as the
defaults are; when no requested level is supported the selection ends with
`E_INVALIDARG`. -/
theorem selectFeatureLevel_spec (support : Nat → Bool) (pFeatureLevels : Option (List Nat))
    (hasOut : Bool) :
    ((∃ l ∈ effectiveLevels pFeatureLevels, support l = true) →
      ∃ flId fl,
        selectFeatureLevel support pFeatureLevels hasOut
          = LevelOutcome.proceed flId fl (if hasOut then some fl else none) ∧
        (effectiveLevels pFeatureLevels)[flId]? = some fl ∧
        support fl = true ∧
        (∀ j x, j < flId → (effectiveLevels pFeatureLevels)[j]? = some x →
          support x = false) ∧
        ((effectiveLevels pFeatureLevels).Pairwise (fun a b => a ≥ b) →
          ∀ x ∈ effectiveLevels pFeatureLevels, support x = true → x ≤ fl)) ∧
    ((∀ l ∈ effectiveLevels pFeatureLevels, support l = false) →
      selectFeatureLevel support pFeatureLevels hasOut = LevelOutcome.E_INVALIDARG) ∧
    effectiveLevels none = defaultFeatureLevels ∧
    effectiveLevels (some []) = defaultFeatureLevels ∧
    defaultFeatureLevels.Pairwise (fun a b => a ≥ b) := by
  refine ⟨?_, ?_, rfl, rfl, by decide⟩
  · rintro ⟨l, hl, hsl⟩
    rcases probeLoop_char support (effectiveLevels pFeatureLevels) 0 with
      ⟨-, h2⟩ | ⟨i, fl, h1, h2, h3, h4, h5, h6⟩
    · rw [h2 l hl] at hsl
      cases hsl
    · rw [Nat.zero_add] at h1
      refine ⟨i, fl, ?_, h3, h4, h5, h6⟩
      have hne : i ≠ (effectiveLevels pFeatureLevels).length := Nat.ne_of_lt h2
      have hget : (effectiveLevels pFeatureLevels).getD i 0 = fl := by
        rw [List.getD_eq_getElem?_getD, h3]
        rfl
      simp only [selectFeatureLevel, h1, hne, if_false, hget]
  · intro hnone
    rcases probeLoop_char support (effectiveLevels pFeatureLevels) 0 with
      ⟨h1, -⟩ | ⟨i, fl, -, h2, h3, h4, -, -⟩
    · rw [Nat.zero_add] at h1
      simp only [selectFeatureLevel, h1, if_true]
    · rw [hnone fl (List.getElem?_mem h3)] at h4
      cases h4

/-- C18 amended, at concrete inputs: the defaults with nothing above 10_0
supported select 10_0, at index 2. -/
theorem selectFeatureLevel_spec_witness :
    ∃ flId fl,
      selectFeatureLevel (fun l => decide (l ≤ D3D_FEATURE_LEVEL_10_0)) none true
        = LevelOutcome.proceed flId fl (if true then some fl else none) ∧
      (effectiveLevels none)[flId]? = some fl ∧
      fl = D3D_FEATURE_LEVEL_10_0 ∧
      ∀ x ∈ effectiveLevels none,
        (fun l => decide (l ≤ D3D_FEATURE_LEVEL_10_0)) x = true → x ≤ fl :=
  have h := (selectFeatureLevel_spec (fun l => decide (l ≤ D3D_FEATURE_LEVEL_10_0)) none true).1
    ⟨D3D_FEATURE_LEVEL_10_0, by decide, by decide⟩
  h.elim fun flId h1 => h1.elim fun fl h2 =>
    ⟨flId, fl, h2.1, h2.2.1,
      Nat.le_antisymm (by simpa using h2.2.2.1)
        (h2.2.2.2.2 (by decide) D3D_FEATURE_LEVEL_10_0 (by decide) (by decide)),
      h2.2.2.2.2 (by decide)⟩

/-- C19: a `Release` on an object freshly constructed at a free address,
with no `AddRef` in between, does not delete it: the call returns
`2^32 - 1`, the object lives on with that counter, and its record is kept
with `ref_count = 2^32 - 1`. -/
theorem fresh_Release_underflows (w : World) (tid p : Nat) (tn0 tn : String)
    (hfresh : w.heap p = none) :
    ∃ w0 w1, w.construct tid p tn0 = some w0 ∧
      w0.Release p tn = some (2 ^ 32 - 1, w1) ∧
      w1.heap p = some { m_refCount := 2 ^ 32 - 1 } ∧
      ∃ r, w1.rm.find p = some r ∧ r.ref_count = 2 ^ 32 - 1 := by
  have hv : (({ m_refCount := 0 } : ComObject).m_refCount + ULONG_MOD - 1) % ULONG_MOD
      = 2 ^ 32 - 1 := by
    show (0 + ULONG_MOD - 1) % ULONG_MOD = 2 ^ 32 - 1
    rw [ULONG_MOD_eq]
    norm_num
  have hnz : (({ m_refCount := 0 } : ComObject).m_refCount + ULONG_MOD - 1) % ULONG_MOD
      ≠ 0 := by
    rw [hv]
    decide
  have hrel := World_Release_nonzero
    { rm := create w.rm tid p 2 (some tn0)
      heap := Function.update w.heap p (some { m_refCount := 0 }) }
    p tn { m_refCount := 0 } (Function.update_same _ _ _) hnz
  rw [hv] at hrel
  refine ⟨_, _, ?_, hrel, Function.update_same _ _ _, find_ref_self _ _ _ _⟩
  simp only [World.construct, hfresh, ComObject.construct]

/-- C19, on the empty world. -/
theorem fresh_Release_underflows_witness :
    ∃ w0 w1, World.empty.construct 1 100 "T" = some w0 ∧
      w0.Release 100 "U" = some (2 ^ 32 - 1, w1) ∧
      w1.heap 100 = some { m_refCount := 2 ^ 32 - 1 } ∧
      ∃ r, w1.rm.find 100 = some r ∧ r.ref_count = 2 ^ 32 - 1 :=
  fresh_Release_underflows World.empty 1 100 "T" "U" rfl

/-- C20: for two different identities `p` and `q`, `create`, `ref` and
`destroy` on `p` leave the entry of `q` as it was; and `ref` on an existing
record of `p` keeps its `type` and `create_thread`. -/
theorem per_identity_frame (rm : RefMap) (p q : Nat) (h : p ≠ q) :
    (∀ tid type name, (create rm tid p type name).find q = rm.find q) ∧
    (∀ name refs, (ref rm p name refs).find q = rm.find q) ∧
    (destroy rm p).find q = rm.find q ∧
    (∀ r name refs, rm.find p = some r →
      ∃ r1, (ref rm p name refs).find p = some r1 ∧
        r1.type = r.type ∧ r1.create_thread = r.create_thread) := by
  refine ⟨?_, ?_, ?_, ?_⟩
  · intro tid type name
    exact RefMap.find_modifyAt_ne rm p q _ (Ne.symm h)
  · intro name refs
    exact find_ref_ne rm p q name refs (Ne.symm h)
  · exact RefMap.find_erase_ne rm p q (Ne.symm h)
  · intro r name refs hr
    refine ⟨refUpdate name refs r, ?_, refUpdate_type_thread name refs r⟩
    rw [ref, RefMap.find_modifyAt_self, hr]
    rfl

/-- C20, at concrete inputs: operations on address 7 beside a record at 8. -/
theorem per_identity_frame_witness :
    (∀ tid type name,
      (create [(7, { create_thread := some 4, type := 2 }), (8, { name := some "V" })]
        tid 7 type name).find 8 = some { name := some "V" }) ∧
    (destroy [(7, { create_thread := some 4, type := 2 }), (8, { name := some "V" })] 7).find 8
      = some { name := some "V" } ∧
    ∃ r1, (ref [(7, { create_thread := some 4, type := 2 }), (8, { name := some "V" })]
        7 (some "T") 9).find 7 = some r1 ∧ r1.type = 2 ∧ r1.create_thread = some 4 :=
  have h := per_identity_frame
    [(7, { create_thread := some 4, type := 2 }), (8, { name := some "V" })] 7 8 (by decide)
  ⟨h.1, h.2.2.1, h.2.2.2 { create_thread := some 4, type := 2 } (some "T") 9 rfl⟩

end dxvk
